import Mathlib

/-!
Shallow embedding of the Docker image-authorization plugin
(`src/src/main/plugin.go`) and verification of its specification.

Modelling conventions:
* Go strings are byte sequences; the requests the plugin handles are ASCII,
  so strings are modelled as lists of characters (`Str`).  Byte indexing and
  slicing (`s[0:idx]`, `s[idx:]`) become `List.take` / `List.drop`.
* Go's `map[string]bool` whitelists only ever receive `true` entries
  (see `main.go`), so they are modelled as lists of keys; `m[k]` lookup is
  list membership (`List.contains`) and `len(m)` is the list length.  Map
  iteration order, which Go leaves unspecified, is modelled as list order.
* A Go `nil` pointer dereference (a runtime panic) is modelled by `Option`:
  `AuthZReq` returns `none` exactly when the Go code panics.
-/

namespace ImgAuthz

/-- Go strings modelled as lists of characters. -/
abbrev Str := List Char

/-- Turn a Lean string literal into the `Str` model. -/
def toStr (s : String) : Str := s.data

/-- Model of Go `ishex` (net/url): hexadecimal digit test. -/
def ishex (c : Char) : Bool :=
  (decide ('0' ≤ c) && decide (c ≤ '9')) ||
  (decide ('a' ≤ c) && decide (c ≤ 'f')) ||
  (decide ('A' ≤ c) && decide (c ≤ 'F'))

/-- Model of Go `unhex` (net/url): value of a hexadecimal digit. -/
def unhex (c : Char) : Nat :=
  if decide ('0' ≤ c) && decide (c ≤ '9') then c.toNat - '0'.toNat
  else if decide ('a' ≤ c) && decide (c ≤ 'f') then c.toNat - 'a'.toNat + 10
  else if decide ('A' ≤ c) && decide (c ≤ 'F') then c.toNat - 'A'.toNat + 10
  else 0

/-- Model of Go `url.QueryUnescape`: percent-decodes the string, turning `+`
into a space; fails (returns `none`, Go returns `"", err`) when a `%` is not
followed by two hexadecimal digits.  Decoded bytes are modelled as the
character with that code point (the plugin's traffic is ASCII). -/
def queryUnescape : Str → Option Str
  | [] => some []
  | '%' :: a :: b :: rest =>
    if ishex a && ishex b then
      (queryUnescape rest).map (fun t => Char.ofNat (16 * unhex a + unhex b) :: t)
    else none
  | '%' :: _ => none
  | '+' :: rest => (queryUnescape rest).map (fun t => ' ' :: t)
  | c :: rest => (queryUnescape rest).map (fun t => c :: t)

/-- Model of Go `unescape` in `encodePath` mode (used by `URL.setPath`):
like `queryUnescape` but `+` is left unchanged. -/
def pathUnescape : Str → Option Str
  | [] => some []
  | '%' :: a :: b :: rest =>
    if ishex a && ishex b then
      (pathUnescape rest).map (fun t => Char.ofNat (16 * unhex a + unhex b) :: t)
    else none
  | '%' :: _ => none
  | c :: rest => (pathUnescape rest).map (fun t => c :: t)

/-- Model of Go `strings.Cut(s, sep)` for a one-character separator:
returns (before, after, found). -/
def cutChar : Str → Char → Str × Str × Bool
  | [], _ => ([], [], false)
  | c :: rest, sep =>
    if c = sep then ([], rest, true)
    else
      let r := cutChar rest sep
      (c :: r.1, r.2.1, r.2.2)

/-- Model of Go `strings.HasSuffix`. -/
def goHasSuffix (s suf : Str) : Bool := suf.isSuffixOf s

/-- Model of Go `strings.Index(s, t)` for a one-character `t`:
index of the first occurrence, `none` for Go's `-1`. -/
def goIndex : Str → Char → Option Nat
  | [], _ => none
  | c :: rest, t =>
    if c = t then some 0 else (goIndex rest t).map (fun i => i + 1)

/-- Splitting a string at every occurrence of a separator character
(the iteration of `strings.Cut` done by Go's `url.parseQuery` loop);
the empty string yields `[[]]`, whose lone empty segment `parseQuery`
then skips, matching Go's zero-iteration loop. -/
def splitSep : Str → Char → List Str
  | [], _ => [[]]
  | c :: rest, sep =>
    let r := splitSep rest sep
    if c = sep then [] :: r
    else
      match r with
      | [] => [[c]]
      | h :: t => (c :: h) :: t

/-- One iteration of Go `url.parseQuery`: a `&`-separated segment becomes a
key/value pair unless it is empty, contains a semicolon, or either side
fails to percent-decode (Go records the error and skips the segment). -/
def querySegmentPair (seg : Str) : Option (Str × Str) :=
  if seg.contains ';' then none
  else if seg = [] then none
  else
    let kv := cutChar seg '='
    match queryUnescape kv.1, queryUnescape kv.2.1 with
    | some k, some v => some (k, v)
    | _, _ => none

/-- Model of Go `url.parseQuery` applied to a raw query string. -/
def parseQuery (q : Str) : List (Str × Str) :=
  (splitSep q '&').filterMap querySegmentPair

/-- Model of Go `URL.Query().Get(key)`: the first value recorded for `key`,
or the empty string. -/
def queryGet (rawQuery : Str) (key : Str) : Str :=
  match (parseQuery rawQuery).find? (fun p => p.1 == key) with
  | some p => p.2
  | none => []

/-- The part of Go's `url.URL` the plugin reads: the decoded path and the
raw query string. -/
structure GoURL where
  path : Str
  rawQuery : Str
  deriving DecidableEq

/-- Model of Go `stringContainsCTLByte`. -/
def containsCTL (s : Str) : Bool :=
  s.any (fun c => decide (c.toNat < 32) || decide (c.toNat = 127))

/-- Model of Go `url.ParseRequestURI` for the origin-form request URIs the
Docker daemon forwards to the plugin (an absolute path, optionally followed
by `?query`).  Absolute-URL forms carrying a scheme are outside the model.
Faithful to Go's `parse(rawURL, viaRequest=true)` on this domain: control
bytes, the empty string, and a non-`*` string that does not start with `/`
are errors (`none`, which leaves the caller's `*url.URL` nil), the string is
cut at the first `?` into path and raw query, and the path is
percent-decoded by `setPath`, whose failure is also an error. -/
def parseRequestURI (s : Str) : Option GoURL :=
  if containsCTL s then none
  else if s = [] then none
  else if s = toStr "*" then some ⟨toStr "*", []⟩
  else
    let cut := cutChar s '?'
    if cut.1.head? = some '/' then
      match pathUnescape cut.1 with
      | some p => some ⟨p, cut.2.1⟩
      | none => none
    else none

/-- The fields of `authorization.Request` the plugin reads.  The request
body enters the decision logic only as `config.Image` after
`json.Unmarshal(req.RequestBody, &config)` whose error is ignored, so the
body is modelled by that decoded field directly: `bodyImage` is the `Image`
string of the JSON body, and is empty when the body does not decode or the
field is absent (Go's zero value). -/
structure Request where
  RequestMethod : Str
  RequestURI : Str
  bodyImage : Str
  deriving DecidableEq

/-- Model of `authorization.Response`: the `Allow` flag and the message
(empty when the struct literal omits `Msg`). -/
structure Response where
  Allow : Bool
  Msg : Str
  deriving DecidableEq

/-- The `ImgAuthZPlugin` struct (the Docker client field is transport
plumbing never read by the decision path and is omitted). -/
structure ImgAuthZPlugin where
  authorizedRegistries : List Str
  numAuthorizedRegistries : Nat
  authRegistriesAsString : Str
  authorizedImages : List Str
  numAuthorizedImages : Nat
  authImagesAsString : Str

/-- Model of `authRegistries`: the whitelist keys joined by `", "`. -/
def authRegistries (m : List Str) : Str := List.intercalate (toStr ", ") m

/-- Model of `authImages`: the whitelist keys joined by `", "`. -/
def authImages (m : List Str) : Str := List.intercalate (toStr ", ") m

/-- Model of `newPlugin` (the Docker-client construction, whose failure
aborts startup before any decision is made, is out of the decision path). -/
def newPlugin (registries images : List Str) : ImgAuthZPlugin :=
  { authorizedRegistries := registries
    authorizedImages := images
    numAuthorizedRegistries := registries.length
    numAuthorizedImages := images.length
    authRegistriesAsString := authRegistries registries
    authImagesAsString := authImages images }

/-- Model of `plugin.hasAuthorizedRegistries()`. -/
def hasAuthorizedRegistries (plugin : ImgAuthZPlugin) : Bool :=
  decide (plugin.numAuthorizedRegistries > 0)

/-- Model of `plugin.hasAuthorizedImages()`. -/
def hasAuthorizedImages (plugin : ImgAuthZPlugin) : Bool :=
  decide (plugin.numAuthorizedImages > 0)

/-- Model of `plugin.processRequest(req, reqURL)` for a non-nil `reqURL`
(the nil case, reached when URI parsing fails, panics in Go and is handled
in `AuthZReq`).  Note that in the branch where the image path contains no
`/`, the Go code assigns `registry = "library"` but never assigns `image`,
which therefore keeps its initial empty value. -/
def processRequest (req : Request) (reqURL : GoURL) : Str × Str × Bool :=
  let registry : Str := []
  let image : Str := []
  let imagePath : Str := []
  let imagePath :=
    if goHasSuffix reqURL.path (toStr "/containers/create") then req.bodyImage
    else imagePath
  let imagePath :=
    if goHasSuffix reqURL.path (toStr "/images/create") then
      queryGet reqURL.rawQuery (toStr "fromImage")
    else imagePath
  if imagePath.length > 0 then
    let registry := toStr "library"
    match goIndex imagePath '/' with
    | some idx => (imagePath.take idx, imagePath.drop idx, true)
    | none => (registry, image, true)
  else (registry, image, false)

/-- Lines 124-125 of `AuthZReq`: `url.QueryUnescape` with the error ignored
(a failed unescape leaves the empty string), then `url.ParseRequestURI`
with the error ignored (a failed parse leaves a nil `*url.URL`, i.e.
`none`). -/
def decodeRequestURL (requestURI : Str) : Option GoURL :=
  parseRequestURI ((queryUnescape requestURI).getD [])

/-- Model of `plugin.AuthZReq(req)`.  Returns `none` when the Go code
panics: a nil `reqURL` (URI that fails to unescape or parse) is dereferenced
unconditionally by `processRequest` at `reqURL.Path`. -/
def AuthZReq (plugin : ImgAuthZPlugin) (req : Request) : Option Response :=
  match decodeRequestURL req.RequestURI with
  | none => none
  | some reqURL =>
    let r := processRequest req reqURL
    if r.2.2 = false then some ⟨true, []⟩
    else if hasAuthorizedRegistries plugin = false then
      some ⟨false, toStr "No authorized registries configured"⟩
    else if hasAuthorizedImages plugin = false then
      some ⟨false, toStr "No authorized images configured"⟩
    else if plugin.authorizedRegistries.contains r.1 &&
            plugin.authorizedImages.contains r.2.1 then
      some ⟨true, []⟩
    else
      some ⟨false,
        toStr "You can only use docker images from the following authorized registries: "
          ++ plugin.authRegistriesAsString⟩

/-- Model of `plugin.AuthZRes(req)`: every response is allowed. -/
def AuthZRes (plugin : ImgAuthZPlugin) (req : Request) : Response :=
  ⟨true, []⟩

end ImgAuthz

namespace ImgAuthz

/-! Helper lemmas. -/

lemma contains_true_iff (l : List Str) (a : Str) : l.contains a = true ↔ a ∈ l := by
  simp [List.elem_iff]

lemma goIndex_first (s : Str) (c : Char) :
    ∀ (i : Nat) (hi : i < s.length), s.get ⟨i, hi⟩ = c → c ∉ s.take i →
      goIndex s c = some i := by
  induction s with
  | nil => intro i hi _ _; exact absurd hi (Nat.not_lt_zero i)
  | cons a t ih =>
    intro i hi hc hf
    cases i with
    | zero =>
      have ha : a = c := hc
      rw [goIndex, if_pos ha]
    | succ k =>
      rw [List.take_succ_cons, List.mem_cons] at hf
      push_neg at hf
      obtain ⟨hca, hf'⟩ := hf
      have hk : k < t.length := Nat.lt_of_succ_lt_succ hi
      have hc' : t.get ⟨k, hk⟩ = c := hc
      have ha : ¬(a = c) := fun h => hca h.symm
      rw [goIndex, if_neg ha, ih k hk hc' hf', Option.map_some']

lemma authZReq_registry_op (plugin : ImgAuthZPlugin) (req : Request) (u : GoURL)
    (hdec : decodeRequestURL req.RequestURI = some u)
    (hop : (processRequest req u).2.2 = true)
    (hR : hasAuthorizedRegistries plugin = true)
    (hI : hasAuthorizedImages plugin = true) :
    AuthZReq plugin req =
      (if plugin.authorizedRegistries.contains (processRequest req u).1 &&
          plugin.authorizedImages.contains (processRequest req u).2.1 then
        some ⟨true, []⟩
      else
        some ⟨false,
          toStr "You can only use docker images from the following authorized registries: "
            ++ plugin.authRegistriesAsString⟩) := by
  simp only [AuthZReq, hdec]
  simp [hop, hR, hI]

end ImgAuthz

namespace ImgAuthz

/-- C1: the claim says that for a candidate image path with no `/` the
derived image equals the whole candidate string.  Evaluating the code at the
pull request for `ubuntu` shows the derived registry is `library` and
`isRegistryOperation` is true as claimed, but the derived image is the EMPTY
string (the Go code never assigns `image` in the no-slash branch), not the
candidate `ubuntu`. -/
theorem c1_no_slash_image_is_empty :
    processRequest
      ⟨toStr "POST", toStr "/v1.40/images/create?fromImage=ubuntu", []⟩
      ⟨toStr "/v1.40/images/create", toStr "fromImage=ubuntu"⟩
      = (toStr "library", [], true) ∧ toStr "ubuntu" ≠ ([] : Str) := by
  constructor
  · decide
  · decide

/-- C2: the claim says an unparsable request URI degrades to a non-registry
classification and Allow.  Evaluating the code at `RequestURI = "%zz"` shows
the opposite: `url.QueryUnescape` fails (yielding the empty string, the
error being discarded), `url.ParseRequestURI` of the empty string fails
(yielding a nil URL, the error being discarded), and `processRequest`
dereferences the nil URL at `reqURL.Path` — a runtime panic, modelled as
`none`. -/
theorem c2_bad_uri_panics :
    AuthZReq (newPlugin [toStr "library"] [toStr "ubuntu"])
      ⟨toStr "POST", toStr "%zz", []⟩ = none := by
  decide

/-- C3: the claim (spec Scenario B) says the pull of `ubuntu` with policy
registries `{library}` and images `{ubuntu}` derives image `ubuntu` and is
allowed.  Evaluating the code shows the derived image is empty (see C1), the
image-whitelist lookup fails, and the request is DENIED with the
registry-enumeration message. -/
theorem c3_scenario_b_denied :
    AuthZReq (newPlugin [toStr "library"] [toStr "ubuntu"])
      ⟨toStr "POST", toStr "/v1.40/images/create?fromImage=ubuntu", []⟩
      = some ⟨false,
          toStr "You can only use docker images from the following authorized registries: library"⟩ := by
  decide

/-- C8: `AuthZRes` allows every response unconditionally, independent of the
request contents and of the policy: its value is the constant allow
response. -/
theorem c8_authzres_always_allows (plugin : ImgAuthZPlugin) (req : Request) :
    AuthZRes plugin req = ⟨true, []⟩ := rfl

/-- C9: the decision is deterministic and idempotent: two evaluations of
`AuthZReq` with identical requests against the same unmodified policy yield
identical decisions (the decision is a pure function of the plugin's
whitelist state and the request; no hidden state exists in the model,
matching the Go code, which mutates nothing after construction). -/
theorem c9_decision_deterministic (plugin plugin' : ImgAuthZPlugin)
    (req req' : Request) (hp : plugin = plugin') (hr : req = req') :
    AuthZReq plugin req = AuthZReq plugin' req' := by
  rw [hp, hr]

/-- Witness for C9 at a concrete input. -/
theorem c9_witness :
    AuthZReq (newPlugin [toStr "library"] [toStr "ubuntu"])
        ⟨toStr "POST", toStr "/v1.40/images/create?fromImage=ubuntu", []⟩ =
      AuthZReq (newPlugin [toStr "library"] [toStr "ubuntu"])
        ⟨toStr "POST", toStr "/v1.40/images/create?fromImage=ubuntu", []⟩ :=
  c9_decision_deterministic
    (newPlugin [toStr "library"] [toStr "ubuntu"])
    (newPlugin [toStr "library"] [toStr "ubuntu"])
    ⟨toStr "POST", toStr "/v1.40/images/create?fromImage=ubuntu", []⟩
    ⟨toStr "POST", toStr "/v1.40/images/create?fromImage=ubuntu", []⟩
    rfl rfl

end ImgAuthz

namespace ImgAuthz

/-- C5: for every registry-operation request, an empty registry whitelist
yields Deny with "No authorized registries configured" (checked first, for
any image whitelist), and a non-empty registry whitelist with an empty image
whitelist yields Deny with "No authorized images configured" — even if the
other whitelist would have matched. -/
theorem c5_empty_whitelist_denies (regs imgs : List Str) (req : Request)
    (u : GoURL) (hdec : decodeRequestURL req.RequestURI = some u)
    (hop : (processRequest req u).2.2 = true) :
    (regs = [] →
      AuthZReq (newPlugin regs imgs) req =
        some ⟨false, toStr "No authorized registries configured"⟩) ∧
    (regs ≠ [] → imgs = [] →
      AuthZReq (newPlugin regs imgs) req =
        some ⟨false, toStr "No authorized images configured"⟩) := by
  constructor
  · intro hr
    subst hr
    simp only [AuthZReq, hdec]
    simp [hop, hasAuthorizedRegistries, newPlugin]
  · intro hr hi
    subst hi
    simp only [AuthZReq, hdec]
    simp [hop, hasAuthorizedRegistries, hasAuthorizedImages, newPlugin,
      List.length_pos, hr]

/-- Witness for C5 at a concrete input: empty registry whitelist, matching
image whitelist, pull request for `ubuntu`. -/
theorem c5_witness :
    AuthZReq (newPlugin [] [toStr "ubuntu"])
      ⟨toStr "POST", toStr "/v1.40/images/create?fromImage=ubuntu", []⟩ =
      some ⟨false, toStr "No authorized registries configured"⟩ :=
  (c5_empty_whitelist_denies [] [toStr "ubuntu"]
    ⟨toStr "POST", toStr "/v1.40/images/create?fromImage=ubuntu", []⟩
    ⟨toStr "/v1.40/images/create", toStr "fromImage=ubuntu"⟩
    (by decide) (by decide)).1 rfl

/-- C6: for every candidate image path (delivered through the `fromImage`
query parameter of an image-pull path) containing a `/`, and for every
possible position `i` of the first `/`, the derived registry is the
substring strictly before the first `/` and the derived image is the
substring from the first `/` onward, inclusive, with
`isRegistryOperation = true`. -/
theorem c6_split_at_first_slash (req : Request) (u : GoURL) (s : Str)
    (i : Nat) (hsuf : goHasSuffix u.path (toStr "/images/create") = true)
    (hq : queryGet u.rawQuery (toStr "fromImage") = s)
    (hi : i < s.length) (hc : s.get ⟨i, hi⟩ = '/')
    (hfirst : '/' ∉ s.take i) :
    processRequest req u = (s.take i, s.drop i, true) := by
  have hidx := goIndex_first s '/' i hi hc hfirst
  have hpos : 0 < s.length := Nat.lt_of_le_of_lt (Nat.zero_le i) hi
  simp only [processRequest, hsuf, if_true, hq]
  rw [if_pos hpos, hidx]

/-- Witness for C6 at a concrete input: candidate `a/b`, first slash at
position 1. -/
theorem c6_witness :
    processRequest ⟨toStr "POST", toStr "/x/images/create?fromImage=a/b", []⟩
      ⟨toStr "/x/images/create", toStr "fromImage=a/b"⟩
      = (toStr "a", toStr "/b", true) := by
  rw [c6_split_at_first_slash
    ⟨toStr "POST", toStr "/x/images/create?fromImage=a/b", []⟩
    ⟨toStr "/x/images/create", toStr "fromImage=a/b"⟩
    (toStr "a/b") 1 (by decide) (by decide) (by decide) (by decide) (by decide)]
  decide

/-- C7: for every request whose decoded path ends with neither the
container-creation suffix nor the image-pull suffix, `AuthZReq` returns
Allow, regardless of the policy contents. -/
theorem c7_non_registry_allowed (plugin : ImgAuthZPlugin) (req : Request)
    (u : GoURL) (hdec : decodeRequestURL req.RequestURI = some u)
    (h1 : goHasSuffix u.path (toStr "/containers/create") = false)
    (h2 : goHasSuffix u.path (toStr "/images/create") = false) :
    AuthZReq plugin req = some ⟨true, []⟩ := by
  have hproc : processRequest req u = ([], [], false) := by
    simp [processRequest, h1, h2]
  simp only [AuthZReq, hdec]
  simp [hproc]

/-- Witness for C7 at a concrete input: a container-list request and an
empty policy. -/
theorem c7_witness :
    AuthZReq (newPlugin [] []) ⟨toStr "GET", toStr "/v1.40/containers/list", []⟩ =
      some ⟨true, []⟩ :=
  c7_non_registry_allowed (newPlugin [] [])
    ⟨toStr "GET", toStr "/v1.40/containers/list", []⟩
    ⟨toStr "/v1.40/containers/list", []⟩
    (by decide) (by decide) (by decide)

end ImgAuthz

namespace ImgAuthz

/-- C4: for every classified registry operation evaluated against a policy
with non-empty registry and image whitelists, the decision is Allow exactly
when the derived registry is in the authorized-registries set AND the
derived image is in the authorized-images set; otherwise the decision is
Deny with a message enumerating the authorized registries, comma-joined. -/
theorem c4_whitelists_conjunctive (regs imgs : List Str) (req : Request)
    (u : GoURL) (hdec : decodeRequestURL req.RequestURI = some u)
    (hop : (processRequest req u).2.2 = true)
    (hregs : regs ≠ []) (himgs : imgs ≠ []) :
    (AuthZReq (newPlugin regs imgs) req = some ⟨true, []⟩ ↔
      (processRequest req u).1 ∈ regs ∧ (processRequest req u).2.1 ∈ imgs) ∧
    (¬((processRequest req u).1 ∈ regs ∧ (processRequest req u).2.1 ∈ imgs) →
      AuthZReq (newPlugin regs imgs) req =
        some ⟨false,
          toStr "You can only use docker images from the following authorized registries: "
            ++ List.intercalate (toStr ", ") regs⟩) := by
  have hR : hasAuthorizedRegistries (newPlugin regs imgs) = true := by
    simp [hasAuthorizedRegistries, newPlugin, List.length_pos, hregs]
  have hI : hasAuthorizedImages (newPlugin regs imgs) = true := by
    simp [hasAuthorizedImages, newPlugin, List.length_pos, himgs]
  have heval := authZReq_registry_op (newPlugin regs imgs) req u hdec hop hR hI
  by_cases hmem :
      (processRequest req u).1 ∈ regs ∧ (processRequest req u).2.1 ∈ imgs
  · have hcond :
        ((newPlugin regs imgs).authorizedRegistries.contains (processRequest req u).1 &&
          (newPlugin regs imgs).authorizedImages.contains (processRequest req u).2.1) = true := by
      rw [Bool.and_eq_true]
      exact ⟨(contains_true_iff regs _).mpr hmem.1,
             (contains_true_iff imgs _).mpr hmem.2⟩
    refine ⟨⟨fun _ => hmem, fun _ => ?_⟩, fun hn => absurd hmem hn⟩
    rw [heval, if_pos hcond]
  · have hcond :
        ((newPlugin regs imgs).authorizedRegistries.contains (processRequest req u).1 &&
          (newPlugin regs imgs).authorizedImages.contains (processRequest req u).2.1) = false := by
      rw [Bool.eq_false_iff]
      intro h
      rw [Bool.and_eq_true] at h
      exact hmem ⟨(contains_true_iff regs _).mp h.1,
                  (contains_true_iff imgs _).mp h.2⟩
    have hne :
        ((newPlugin regs imgs).authorizedRegistries.contains (processRequest req u).1 &&
          (newPlugin regs imgs).authorizedImages.contains (processRequest req u).2.1) ≠ true := by
      rw [hcond]
      decide
    have hdeny :
        AuthZReq (newPlugin regs imgs) req =
          some ⟨false,
            toStr "You can only use docker images from the following authorized registries: "
              ++ List.intercalate (toStr ", ") regs⟩ := by
      rw [heval, if_neg hne]
      rfl
    refine ⟨⟨fun hall => ?_, fun h => absurd h hmem⟩, fun _ => hdeny⟩
    rw [hdeny] at hall
    simp at hall

/-- Witness for C4 at a concrete input: pull of `library/app`, both
whitelists matching, yielding Allow via the forward direction. -/
theorem c4_witness :
    AuthZReq (newPlugin [toStr "library"] [toStr "/app"])
      ⟨toStr "POST", toStr "/v1.40/images/create?fromImage=library/app", []⟩ =
      some ⟨true, []⟩ :=
  (c4_whitelists_conjunctive [toStr "library"] [toStr "/app"]
      ⟨toStr "POST", toStr "/v1.40/images/create?fromImage=library/app", []⟩
      ⟨toStr "/v1.40/images/create", toStr "fromImage=library/app"⟩
      (by decide) (by decide) (by decide) (by decide)).1.mpr
    ⟨by decide, by decide⟩

/-- C10: for every non-empty candidate image path beginning with `/`, the
derived registry is the empty string and the derived image is the whole
candidate path, and such a request can only be allowed if the empty string
itself is a member of the authorized-registries whitelist. -/
theorem c10_leading_slash_empty_registry (req : Request) (u : GoURL)
    (s : Str) (hdec : decodeRequestURL req.RequestURI = some u)
    (hsuf : goHasSuffix u.path (toStr "/images/create") = true)
    (hq : queryGet u.rawQuery (toStr "fromImage") = s)
    (hhead : s.head? = some '/') :
    processRequest req u = ([], s, true) ∧
    ∀ plugin : ImgAuthZPlugin,
      AuthZReq plugin req = some ⟨true, []⟩ →
      plugin.authorizedRegistries.contains ([] : Str) = true := by
  obtain ⟨t, rfl⟩ : ∃ t, s = '/' :: t := by
    cases s with
    | nil => simp at hhead
    | cons a t =>
      simp only [List.head?_cons, Option.some.injEq] at hhead
      exact ⟨t, by rw [hhead]⟩
  have h1 : processRequest req u = ([], '/' :: t, true) := by
    have hidx : goIndex ('/' :: t) '/' = some 0 := by
      rw [goIndex, if_pos rfl]
    have hpos : 0 < ('/' :: t).length := Nat.succ_pos _
    simp only [processRequest, hsuf, if_true, hq]
    rw [if_pos hpos, hidx]
    rfl
  refine ⟨h1, ?_⟩
  intro plugin hall
  have hop : (processRequest req u).2.2 = true := by rw [h1]
  cases hR : hasAuthorizedRegistries plugin with
  | false =>
    simp only [AuthZReq, hdec] at hall
    simp [hop, hR] at hall
  | true =>
    cases hI : hasAuthorizedImages plugin with
    | false =>
      simp only [AuthZReq, hdec] at hall
      simp [hop, hR, hI] at hall
    | true =>
      have heval := authZReq_registry_op plugin req u hdec hop hR hI
      rw [heval] at hall
      by_cases hcond :
          (plugin.authorizedRegistries.contains (processRequest req u).1 &&
            plugin.authorizedImages.contains (processRequest req u).2.1) = true
      · have := (Bool.and_eq_true _ _).mp hcond |>.1
        rw [h1] at this
        exact this
      · rw [if_neg hcond] at hall
        simp at hall

/-- Witness for C10 at a concrete input: candidate `/app`, which begins
with a slash. -/
theorem c10_witness :
    processRequest ⟨toStr "POST", toStr "/x/images/create?fromImage=/app", []⟩
      ⟨toStr "/x/images/create", toStr "fromImage=/app"⟩ =
      ([], toStr "/app", true) :=
  (c10_leading_slash_empty_registry
    ⟨toStr "POST", toStr "/x/images/create?fromImage=/app", []⟩
    ⟨toStr "/x/images/create", toStr "fromImage=/app"⟩
    (toStr "/app") (by decide) (by decide) (by decide) (by decide)).1

end ImgAuthz
